import Mathlib

/-!
Shallow embedding of the spread-monitoring decision engine of the Mexc-bot
repository (src/src/mastra/services/spreadMonitoringService.ts), together
with theorems checking the natural-language specification against it.

Prices are modelled as rationals.  A JavaScript number that may be NaN is
modelled by the inductive type `JsNum`; a `Promise<number | null>` result is
`Option JsNum` (`none` is `null`).  The JavaScript truthiness test
`if (!mexcPrice || !dexPrice) continue;` treats `null`, `NaN` and `0` as
falsy, which `usablePrice` captures.  A position/order listing that may
throw is `Option (List _)` (`none` models a thrown exception).
-/

namespace SpreadBot

/-- ENTRY_SPREAD = 13: entry threshold, percent (line 5 of the service). -/
def ENTRY_SPREAD : ℚ := 13

/-- RESET_SPREAD = 7: reset threshold, percent (line 6 of the service). -/
def RESET_SPREAD : ℚ := 7

/-- EXIT_SPREAD = 2: exit threshold, percent (line 7 of the service). -/
def EXIT_SPREAD : ℚ := 2

/-- A JavaScript number: either NaN or an actual (rational-modelled) value. -/
inductive JsNum where
  | nan : JsNum
  | num : ℚ → JsNum
deriving DecidableEq

/-- Truthiness filter applied by `if (!mexcPrice || !dexPrice) continue;`:
`null` (`none`), `NaN` and `0` are falsy and yield no usable price. -/
def usablePrice : Option JsNum → Option ℚ
  | none => none
  | some JsNum.nan => none
  | some (JsNum.num q) => if q = 0 then none else some q

/-- calculateSpread (service lines 35-37):
`Math.abs(mexcPrice - dexPrice) / dexPrice * 100`. -/
def calculateSpread (mexcPrice dexPrice : ℚ) : ℚ :=
  |mexcPrice - dexPrice| / dexPrice * 100

/-- An exchange position as inspected by the service (`symbol`, `direction`,
`quantity` fields are the only ones read). -/
structure Position where
  symbol : String
  direction : String
  quantity : ℚ
deriving DecidableEq

/-- A pending order; only its `symbol` field is read. -/
structure Order where
  symbol : String
deriving DecidableEq

/-- The open-SHORT filter `positions.some(p => p.symbol === symbol &&
p.direction === "SHORT" && p.quantity > 0)` used at service lines 53-55,
222-224, 335-337 and 375-377. -/
def hasShortPosition (symbol : String) (positions : List Position) : Bool :=
  positions.any fun p =>
    decide (p.symbol = symbol ∧ p.direction = "SHORT" ∧ 0 < p.quantity)

/-- hasOpenPositionOrOrder (service lines 42-65).  The two listing calls can
throw, modelled by `none`; the catch block then returns `true` ("default to
true, don't trade, if we can't check"). -/
def hasOpenPositionOrOrder (symbol : String)
    (positionsRes : Option (List Position))
    (ordersRes : Option (List Order)) : Bool :=
  match positionsRes, ordersRes with
  | some positions, some orders =>
      hasShortPosition symbol positions
        || orders.any (fun o => decide (o.symbol = symbol))
  | _, _ => true

/-- One persisted row of the spread_monitoring_state table, as the service
reads and writes it. -/
structure HysteresisState where
  wasTriggered : Bool
  lastMexcPrice : Option ℚ
  lastDexPrice : Option ℚ
  lastSpreadPercent : Option ℚ
  lastActionAt : Option ℕ
  updatedAt : Option ℕ
deriving DecidableEq

/-- The row inserted by getOrCreateState when none exists
(service lines 82-86): only `wasTriggered: false` is set. -/
def freshState : HysteresisState :=
  { wasTriggered := false
    lastMexcPrice := none
    lastDexPrice := none
    lastSpreadPercent := none
    lastActionAt := none
    updatedAt := none }

/-- getOrCreateState (service lines 70-97): return the stored row, creating
it with `wasTriggered = false` when absent. -/
def getOrCreateState : Option HysteresisState → HysteresisState
  | some st => st
  | none => freshState

/-- updateState (service lines 102-123): overwrite `wasTriggered` and the
snapshot columns and bump `lastActionAt` / `updatedAt` to the current time.
Both call sites pass every optional argument, so they are required here. -/
def updateState (wasTriggered : Bool) (mexcPrice dexPrice spreadPercent : ℚ)
    (now : ℕ) : HysteresisState :=
  { wasTriggered := wasTriggered
    lastMexcPrice := some mexcPrice
    lastDexPrice := some dexPrice
    lastSpreadPercent := some spreadPercent
    lastActionAt := some now
    updatedAt := some now }

/-- The decision label computed at service lines 320-331 (logged only; it is
assigned before the duplicate-position check runs). -/
def decisionLabel (wasTriggered : Bool) (spreadPercent : ℚ)
    (isPositiveSpreading : Bool) : String :=
  if ENTRY_SPREAD ≤ spreadPercent ∧ isPositiveSpreading = true
      ∧ wasTriggered = false then "enter"
  else if wasTriggered = true ∧ spreadPercent < RESET_SPREAD then
    "wait reset"
  else if wasTriggered = true ∧ spreadPercent < EXIT_SPREAD then "close"
  else if wasTriggered = true then "hold"
  else "skip"

/-- Everything one iteration of the per-symbol loop of
checkAndExecuteSpreadTrades consumes: the configured command entry, the two
price-fetch results, the listing results used by the duplicate-entry check
(`none` models a thrown fetch), the listing used for the `isAutoPosition`
log line, the listing refetched in the exit branch, whether
`openShortCallback` returns without throwing, and the current time. -/
structure SymbolInput where
  symbol : String
  dexPairId : Option String
  mexcPrice : Option JsNum
  dexPrice : Option JsNum
  positionsForEntry : Option (List Position)
  ordersForEntry : Option (List Order)
  positionsForLog : List Position
  positionsForExit : List Position
  openShortOk : Bool
  now : ℕ
deriving DecidableEq

/-- The observable outcome of one per-symbol iteration: the logged decision
label (`none` when the symbol was skipped before the label was computed),
the arguments passed to calculateSpread and its result (`none` when it was
never invoked), the `isAutoPosition` log flag, whether the open-short and
close-short callbacks were invoked, and the persisted state afterwards. -/
structure TickResult where
  decision : Option String
  mexcPriceUsed : Option ℚ
  dexPriceUsed : Option ℚ
  spreadPercent : Option ℚ
  isAutoPosition : Bool
  openShortCalled : Bool
  closeShortCalled : Bool
  newState : Option HysteresisState
deriving DecidableEq

/-- Outcome of a symbol iteration that `continue`d before evaluating: no
label, no calculateSpread call, no trade action, persisted state untouched. -/
def TickResult.skipped (s0 : Option HysteresisState) : TickResult :=
  { decision := none
    mexcPriceUsed := none
    dexPriceUsed := none
    spreadPercent := none
    isAutoPosition := false
    openShortCalled := false
    closeShortCalled := false
    newState := s0 }

/-- One iteration of the per-symbol loop of checkAndExecuteSpreadTrades
(service lines 295-393) against persisted state `s0` for the symbol.

Faithfulness notes.  The loop `continue`s when no dexPairId is configured
(line 299) or when either fetched price is falsy (line 308).  The decision
label and `isAutoPosition` are computed before the entry logic and only
logged.  `hasOpen` is only consulted when the entry guard passes; computing
it unconditionally here is equivalent because the model is pure.  When
`openShortCallback` throws (openShortOk = false) the per-symbol catch at
line 390 aborts the iteration before updateState runs, so the state row is
left as getOrCreateState returned it.  The RESET and EXIT blocks both read
the stale `state` object fetched before the entry logic, so an EXIT still
fires on the tick whose RESET just cleared the flag in the database, and
neither fires on the tick of a fresh ENTER (the stale flag was false).
closeShortCallback and the Telegram sends run after every state write of
the iteration, so their outcome does not affect the persisted state. -/
def processSymbol (inp : SymbolInput) (s0 : Option HysteresisState) :
    TickResult :=
  match inp.dexPairId with
  | none => TickResult.skipped s0
  | some _ =>
    match usablePrice inp.mexcPrice, usablePrice inp.dexPrice with
    | some mexcPrice, some dexPrice =>
      let spreadPercent := calculateSpread mexcPrice dexPrice
      let isPositiveSpreading := decide (dexPrice < mexcPrice)
      let state := getOrCreateState s0
      let decision :=
        decisionLabel state.wasTriggered spreadPercent isPositiveSpreading
      let isAutoPosition :=
        hasShortPosition inp.symbol inp.positionsForLog && state.wasTriggered
      let hasOpen := hasOpenPositionOrOrder inp.symbol
        inp.positionsForEntry inp.ordersForEntry
      let openCalled : Bool := decide (ENTRY_SPREAD ≤ spreadPercent
        ∧ dexPrice < mexcPrice ∧ state.wasTriggered = false
        ∧ hasOpen = false)
      if openCalled = true ∧ inp.openShortOk = false then
        { decision := some decision
          mexcPriceUsed := some mexcPrice
          dexPriceUsed := some dexPrice
          spreadPercent := some spreadPercent
          isAutoPosition := isAutoPosition
          openShortCalled := true
          closeShortCalled := false
          newState := some state }
      else
        let stAfterEntry := if openCalled = true then
            updateState true mexcPrice dexPrice spreadPercent inp.now
          else state
        let stAfterReset := if state.wasTriggered = true
            ∧ spreadPercent < RESET_SPREAD then
            updateState false mexcPrice dexPrice spreadPercent inp.now
          else stAfterEntry
        let closeCalled : Bool := decide (state.wasTriggered = true
          ∧ spreadPercent < EXIT_SPREAD
          ∧ hasShortPosition inp.symbol inp.positionsForExit = true)
        { decision := some decision
          mexcPriceUsed := some mexcPrice
          dexPriceUsed := some dexPrice
          spreadPercent := some spreadPercent
          isAutoPosition := isAutoPosition
          openShortCalled := openCalled
          closeShortCalled := closeCalled
          newState := some stAfterReset }
    | _, _ => TickResult.skipped s0

/-- The armed flag as persisted: lazy creation reads it as false. -/
def armedOf (s : Option HysteresisState) : Bool :=
  (getOrCreateState s).wasTriggered

/-- The spread a tick would compute, when it evaluates at all. -/
def tickSpread? (inp : SymbolInput) : Option ℚ :=
  match inp.dexPairId, usablePrice inp.mexcPrice, usablePrice inp.dexPrice with
  | some _, some m, some d => some (calculateSpread m d)
  | _, _, _ => none

/-- True when the tick either does not evaluate or computes a spread that
stays at or above the reset threshold. -/
def noResetSpread (inp : SymbolInput) : Bool :=
  match tickSpread? inp with
  | some q => decide (RESET_SPREAD ≤ q)
  | none => true

/-- Iterate the per-symbol evaluation over successive monitoring ticks for
one (user, symbol) pair, threading the persisted state. -/
def runTicks (s : Option HysteresisState) :
    List SymbolInput → List TickResult
  | [] => []
  | inp :: rest =>
    let r := processSymbol inp s
    r :: runTicks r.newState rest

/-- Number of ticks on which the open-short callback was invoked. -/
def enterCount (rs : List TickResult) : ℕ :=
  (rs.filter fun r => r.openShortCalled).length

/-- The per-symbol loop of one monitoring tick across a list of configured
commands, threading the per-symbol persisted state map. -/
def runLoop : List SymbolInput → (String → Option HysteresisState) →
    List TickResult × (String → Option HysteresisState)
  | [], σ => ([], σ)
  | inp :: rest, σ =>
    let r := processSymbol inp (σ inp.symbol)
    let σ1 := fun sym => if sym = inp.symbol then r.newState else σ sym
    let (rs, σ2) := runLoop rest σ1
    (r :: rs, σ2)

/-- checkAndExecuteSpreadTrades top level (service lines 283-293): the whole
tick is a no-op unless the user has auto commands with spread monitoring
enabled; otherwise the per-symbol loop runs. -/
def checkAndExecuteSpreadTrades (enabled : Bool) (cmds : List SymbolInput)
    (σ : String → Option HysteresisState) :
    List TickResult × (String → Option HysteresisState) :=
  if enabled then runLoop cmds σ else ([], σ)

/-- A baseline tick input: both prices usable, no open positions or orders,
listings succeed, order submission succeeds. -/
def mkTickInput (m d : ℚ) : SymbolInput :=
  { symbol := "COIN"
    dexPairId := some "pair"
    mexcPrice := some (JsNum.num m)
    dexPrice := some (JsNum.num d)
    positionsForEntry := some []
    ordersForEntry := some []
    positionsForLog := []
    positionsForExit := []
    openShortOk := true
    now := 0 }

/-- A concrete open SHORT position on the baseline symbol. -/
def shortPos : Position := { symbol := "COIN", direction := "SHORT", quantity := 1 }

/-- A concrete persisted row in the ARMED state. -/
def armedState : HysteresisState :=
  { freshState with wasTriggered := true }

/-- True when the tick evaluates and its spread is strictly below the
reset threshold, i.e. exactly when the RESET guard can fire. -/
def resetSpreadHit (inp : SymbolInput) : Bool :=
  match tickSpread? inp with
  | some q => decide (q < RESET_SPREAD)
  | none => false

/-- Concrete input: UNARMED, spread 15 percent, favorable direction, but an
open SHORT position already exists for the symbol. -/
def c8inp : SymbolInput :=
  { mkTickInput 115 100 with positionsForEntry := some [shortPos] }

/-- Concrete input: spread 1 percent with an open SHORT position listed in
the exit-branch refetch. -/
def c8exit : SymbolInput :=
  { mkTickInput 101 100 with positionsForExit := [shortPos] }

end SpreadBot

open SpreadBot

/-- Reading an existing row returns it unchanged. -/
theorem getOrCreateState_some (st : HysteresisState) :
    getOrCreateState (some st) = st := rfl

/-- A symbol with no configured DEX pair or with a falsy fetched price is
skipped: no label, no trade calls, persisted state untouched. -/
theorem processSymbol_skipped (inp : SymbolInput) (s0 : Option HysteresisState)
    (h : inp.dexPairId = none ∨ usablePrice inp.mexcPrice = none
      ∨ usablePrice inp.dexPrice = none) :
    processSymbol inp s0 = TickResult.skipped s0 := by
  unfold processSymbol
  rcases h with h | h | h
  · simp [h]
  · cases hpd : inp.dexPairId <;>
      cases hd : usablePrice inp.dexPrice <;> simp [h, hpd, hd]
  · cases hpd : inp.dexPairId <;>
      cases hm : usablePrice inp.mexcPrice <;> simp [h, hpd, hm]

/-- A skipped tick computes no spread. -/
theorem tickSpread_none (inp : SymbolInput)
    (h : inp.dexPairId = none ∨ usablePrice inp.mexcPrice = none
      ∨ usablePrice inp.dexPrice = none) :
    tickSpread? inp = none := by
  unfold tickSpread?
  rcases h with h | h | h
  · simp [h]
  · cases hpd : inp.dexPairId <;>
      cases hd : usablePrice inp.dexPrice <;> simp [h, hpd, hd]
  · cases hpd : inp.dexPairId <;>
      cases hm : usablePrice inp.mexcPrice <;> simp [h, hpd, hm]

/-- A price that survives the truthiness filter is non-zero. -/
theorem usablePrice_ne_zero (x : Option JsNum) (d : ℚ)
    (h : usablePrice x = some d) : d ≠ 0 := by
  cases x with
  | none => simp [usablePrice] at h
  | some v =>
    cases v with
    | nan => simp [usablePrice] at h
    | num q =>
      simp only [usablePrice] at h
      split_ifs at h with hq
      cases h
      exact hq

/-- Re-running an evaluated tick on the row getOrCreateState returned gives
the same outcome as running it on the original stored state. -/
theorem processSymbol_restate (inp : SymbolInput)
    (s0 : Option HysteresisState) (pid : String) (m d : ℚ)
    (hpid : inp.dexPairId = some pid)
    (hm : usablePrice inp.mexcPrice = some m)
    (hd : usablePrice inp.dexPrice = some d) :
    processSymbol inp (some (getOrCreateState s0)) = processSymbol inp s0 := by
  simp only [processSymbol, hpid, hm, hd, getOrCreateState_some]

/-- The decision label of a tick is either absent (skipped) or the label
computed from the stale flag, the spread and the direction signal. -/
theorem processSymbol_decision (inp : SymbolInput)
    (s0 : Option HysteresisState) :
    (processSymbol inp s0).decision = none
    ∨ ∃ m d, usablePrice inp.mexcPrice = some m
        ∧ usablePrice inp.dexPrice = some d
        ∧ (processSymbol inp s0).decision
          = some (decisionLabel (getOrCreateState s0).wasTriggered
              (calculateSpread m d) (decide (d < m))) := by
  by_cases hskip : inp.dexPairId = none ∨ usablePrice inp.mexcPrice = none
      ∨ usablePrice inp.dexPrice = none
  · left
    rw [processSymbol_skipped inp s0 hskip]
    rfl
  · right
    push_neg at hskip
    obtain ⟨hpd, hmn, hdn⟩ := hskip
    obtain ⟨pid, hpid⟩ := Option.ne_none_iff_exists.mp hpd
    obtain ⟨m, hm⟩ := Option.ne_none_iff_exists.mp hmn
    obtain ⟨d, hd⟩ := Option.ne_none_iff_exists.mp hdn
    refine ⟨m, d, hm.symm, hd.symm, ?_⟩
    simp only [processSymbol, ← hpid, ← hm, ← hd]
    split_ifs <;> rfl

/-- The decision label is always one of the five strings of the code. -/
theorem decisionLabel_cases (w : Bool) (sp : ℚ) (pos : Bool) :
    decisionLabel w sp pos = "enter" ∨ decisionLabel w sp pos = "wait reset"
    ∨ decisionLabel w sp pos = "close" ∨ decisionLabel w sp pos = "hold"
    ∨ decisionLabel w sp pos = "skip" := by
  unfold decisionLabel
  split_ifs <;> simp

/-- The close branch of the label chain is dead code: spread below the exit
threshold is always caught by the earlier reset branch. -/
theorem decisionLabel_ne_close (w : Bool) (sp : ℚ) (pos : Bool) :
    decisionLabel w sp pos ≠ "close" := by
  unfold decisionLabel
  split_ifs with h1 h2 h3 <;> try simp
  exact absurd ⟨h3.1, lt_trans h3.2 (by norm_num [EXIT_SPREAD, RESET_SPREAD])⟩ h2

/-- While ARMED, a tick whose spread never drops below the reset threshold
submits no order and stays ARMED. -/
theorem armed_tick_no_enter (inp : SymbolInput) (s : Option HysteresisState)
    (harm : armedOf s = true) (hsp : noResetSpread inp = true) :
    (processSymbol inp s).openShortCalled = false
    ∧ armedOf (processSymbol inp s).newState = true := by
  have hw : (getOrCreateState s).wasTriggered = true := harm
  by_cases hskip : inp.dexPairId = none ∨ usablePrice inp.mexcPrice = none
      ∨ usablePrice inp.dexPrice = none
  · rw [processSymbol_skipped inp s hskip]
    exact ⟨rfl, harm⟩
  · push_neg at hskip
    obtain ⟨hpd, hm, hd⟩ := hskip
    obtain ⟨pid, hpid⟩ := Option.ne_none_iff_exists.mp hpd
    obtain ⟨m, hm⟩ := Option.ne_none_iff_exists.mp hm
    obtain ⟨d, hd⟩ := Option.ne_none_iff_exists.mp hd
    have hsp7 : RESET_SPREAD ≤ calculateSpread m d := by
      unfold noResetSpread tickSpread? at hsp
      rw [← hpid, ← hm, ← hd] at hsp
      simpa using hsp
    simp only [armedOf]
    simp only [processSymbol, ← hpid, ← hm, ← hd, hw, decide_eq_true_eq,
      Bool.true_eq_false, Bool.false_eq_true, and_false, false_and, and_true,
      true_and, ite_false, if_false, updateState, getOrCreateState_some]
    simp [not_lt.mpr hsp7, hw]

/-- From UNARMED, the next persisted flag is true exactly when the open-short
callback was invoked and returned successfully. -/
theorem unarmed_tick_states (inp : SymbolInput) (s : Option HysteresisState)
    (hun : armedOf s = false) :
    ((processSymbol inp s).openShortCalled = false →
      armedOf (processSymbol inp s).newState = false)
    ∧ (inp.openShortOk = true → (processSymbol inp s).openShortCalled = true →
      armedOf (processSymbol inp s).newState = true) := by
  have hw : (getOrCreateState s).wasTriggered = false := hun
  by_cases hskip : inp.dexPairId = none ∨ usablePrice inp.mexcPrice = none
      ∨ usablePrice inp.dexPrice = none
  · rw [processSymbol_skipped inp s hskip]
    exact ⟨fun _ => hun, fun _ h => by simp [TickResult.skipped] at h⟩
  · push_neg at hskip
    obtain ⟨hpd, hm, hd⟩ := hskip
    obtain ⟨pid, hpid⟩ := Option.ne_none_iff_exists.mp hpd
    obtain ⟨m, hm⟩ := Option.ne_none_iff_exists.mp hm
    obtain ⟨d, hd⟩ := Option.ne_none_iff_exists.mp hd
    simp only [armedOf]
    simp only [processSymbol, ← hpid, ← hm, ← hd, hw, decide_eq_true_eq,
      Bool.true_eq_false, Bool.false_eq_true, and_false, false_and, and_true,
      true_and, ite_false, if_false, updateState, getOrCreateState_some]
    by_cases hg : ENTRY_SPREAD ≤ calculateSpread m d ∧ d < m
        ∧ hasOpenPositionOrOrder inp.symbol inp.positionsForEntry
            inp.ordersForEntry = false
    · by_cases hok : inp.openShortOk = true
      · simp [hg, hok, getOrCreateState_some]
      · rw [Bool.not_eq_true] at hok
        simp [hg, hok, hw, getOrCreateState_some]
    · simp [hg, hw, getOrCreateState_some]

/-- While ARMED, a whole run of ticks with spreads at or above the reset
threshold submits no order. -/
theorem armed_run_no_enter (inps : List SymbolInput)
    (s : Option HysteresisState) (harm : armedOf s = true)
    (hall : inps.all noResetSpread = true) :
    enterCount (runTicks s inps) = 0 := by
  induction inps generalizing s with
  | nil => rfl
  | cons inp rest ih =>
    rw [List.all_cons, Bool.and_eq_true] at hall
    have h1 := armed_tick_no_enter inp s harm hall.1
    simp only [runTicks, enterCount, List.filter_cons, h1.1]
    exact ih (processSymbol inp s).newState h1.2 hall.2

/-- From UNARMED, a run of ticks with spreads at or above the reset threshold
and successful submissions contains at most one order submission. -/
theorem unarmed_run_le_one (inps : List SymbolInput)
    (s : Option HysteresisState) (hun : armedOf s = false)
    (hall : inps.all noResetSpread = true)
    (hok : inps.all (fun i => i.openShortOk) = true) :
    enterCount (runTicks s inps) ≤ 1 := by
  induction inps generalizing s with
  | nil => exact Nat.zero_le 1
  | cons inp rest ih =>
    rw [List.all_cons, Bool.and_eq_true] at hall hok
    have hst := unarmed_tick_states inp s hun
    by_cases hcall : (processSymbol inp s).openShortCalled = true
    · have harm := hst.2 hok.1 hcall
      simp only [runTicks, enterCount, List.filter_cons, hcall]
      have h0 := armed_run_no_enter rest (processSymbol inp s).newState harm hall.2
      simp only [enterCount] at h0
      simp [h0]
    · rw [Bool.not_eq_true] at hcall
      have hun1 := hst.1 hcall
      simp only [runTicks, enterCount, List.filter_cons, hcall]
      simpa [enterCount] using ih (processSymbol inp s).newState hun1 hall.2 hok.2

/-- Concrete evaluation: entry guards pass but an open short exists; the
logged label is nevertheless enter, while no order is submitted. -/
theorem c8_enter_eval :
    (processSymbol c8inp none).decision = some "enter"
    ∧ (processSymbol c8inp none).openShortCalled = false := by
  constructor <;>
    norm_num [processSymbol, c8inp, mkTickInput, usablePrice,
      calculateSpread, getOrCreateState, freshState, shortPos,
      decisionLabel, hasOpenPositionOrOrder, hasShortPosition, ENTRY_SPREAD,
      RESET_SPREAD, EXIT_SPREAD, updateState, TickResult.skipped,
      abs_of_nonneg]

/-- Concrete evaluation: ARMED with spread 1 percent and an open short; the
logged label is wait reset while the close order is submitted. -/
theorem c8_exit_eval :
    (processSymbol c8exit (some armedState)).decision = some "wait reset"
    ∧ (processSymbol c8exit (some armedState)).closeShortCalled = true := by
  constructor <;>
    norm_num [processSymbol, c8exit, mkTickInput, usablePrice,
      calculateSpread, getOrCreateState, freshState, armedState, shortPos,
      decisionLabel, hasOpenPositionOrOrder, hasShortPosition, ENTRY_SPREAD,
      RESET_SPREAD, EXIT_SPREAD, updateState, TickResult.skipped,
      abs_of_nonneg]

/-- C1: on a tick in the UNARMED state with both prices available and a
successful submission path, a short market order is submitted and the state
becomes ARMED if and only if the spread is at least 13 percent (inclusive
boundary), the exchange price exceeds the reference price, and no open
short position and no pending order exist for the symbol; when the guard is
false no trade action occurs. -/
theorem C1_entry_guard (inp : SymbolInput) (s0 : Option HysteresisState)
    (m d : ℚ)
    (hm : usablePrice inp.mexcPrice = some m)
    (hd : usablePrice inp.dexPrice = some d)
    (hpair : inp.dexPairId.isSome = true)
    (hun : armedOf s0 = false)
    (hok : inp.openShortOk = true) :
    (((processSymbol inp s0).openShortCalled = true
        ∧ armedOf (processSymbol inp s0).newState = true)
      ↔ (ENTRY_SPREAD ≤ calculateSpread m d ∧ d < m
          ∧ hasOpenPositionOrOrder inp.symbol inp.positionsForEntry
              inp.ordersForEntry = false))
    ∧ (¬ (ENTRY_SPREAD ≤ calculateSpread m d ∧ d < m
          ∧ hasOpenPositionOrOrder inp.symbol inp.positionsForEntry
              inp.ordersForEntry = false) →
        (processSymbol inp s0).openShortCalled = false)
    ∧ (processSymbol inp s0).closeShortCalled = false := by
  obtain ⟨pid, hpid⟩ := Option.isSome_iff_exists.mp hpair
  have hw : (getOrCreateState s0).wasTriggered = false := hun
  simp only [armedOf]
  simp only [processSymbol, hpid, hm, hd, hok, hw, decide_eq_true_eq,
    Bool.true_eq_false, Bool.false_eq_true, and_false, false_and, and_true,
    true_and, ite_false, if_false, updateState, eq_self_iff_true,
    not_false_eq_true]
  by_cases hg : ENTRY_SPREAD ≤ calculateSpread m d ∧ d < m
      ∧ hasOpenPositionOrOrder inp.symbol inp.positionsForEntry
          inp.ordersForEntry = false
  · simp [hg, getOrCreateState]
  · simp [hg, hw]

/-- C1 witness: spread exactly 13 enters and arms; spread 12.999 does not. -/
theorem C1_entry_guard_witness :
    (processSymbol (mkTickInput 113 100) none).openShortCalled = true
    ∧ armedOf (processSymbol (mkTickInput 113 100) none).newState = true
    ∧ (processSymbol (mkTickInput (112999/1000) 100) none).openShortCalled
        = false := by
  have h1 := C1_entry_guard (mkTickInput 113 100) none 113 100
    (by norm_num [mkTickInput, usablePrice])
    (by norm_num [mkTickInput, usablePrice])
    (by simp [mkTickInput]) rfl rfl
  have h2 := C1_entry_guard (mkTickInput (112999/1000) 100) none (112999/1000) 100
    (by norm_num [mkTickInput, usablePrice])
    (by norm_num [mkTickInput, usablePrice])
    (by simp [mkTickInput]) rfl rfl
  have hg : ENTRY_SPREAD ≤ calculateSpread 113 100 ∧ (100:ℚ) < 113
      ∧ hasOpenPositionOrOrder (mkTickInput 113 100).symbol
          (mkTickInput 113 100).positionsForEntry
          (mkTickInput 113 100).ordersForEntry = false := by
    refine ⟨by norm_num [calculateSpread, ENTRY_SPREAD, abs_of_nonneg], by norm_num, ?_⟩
    simp [mkTickInput, hasOpenPositionOrOrder, hasShortPosition]
  refine ⟨(h1.1.mpr hg).1, (h1.1.mpr hg).2, h2.2.1 ?_⟩
  rintro ⟨hle, -, -⟩
  rw [show calculateSpread (112999/1000) 100 = 12999/1000 by
    norm_num [calculateSpread, abs_of_nonneg]] at hle
  norm_num [ENTRY_SPREAD] at hle

/-- C2: from UNARMED, over any sequence of ticks whose spreads never fall
below 7 percent (with submissions succeeding), at most one ENTER occurs;
the sequence 14, 10, 14, 10 percent yields exactly one entry and
14, 6, 14 percent yields two. -/
theorem C2_single_entry (inps : List SymbolInput) (s0 : Option HysteresisState)
    (hun : armedOf s0 = false)
    (hall : inps.all noResetSpread = true)
    (hok : inps.all (fun i => i.openShortOk) = true) :
    enterCount (runTicks s0 inps) ≤ 1
    ∧ enterCount (runTicks none [mkTickInput 114 100, mkTickInput 110 100,
        mkTickInput 114 100, mkTickInput 110 100]) = 1
    ∧ enterCount (runTicks none [mkTickInput 114 100, mkTickInput 106 100,
        mkTickInput 114 100]) = 2 := by
  refine ⟨unarmed_run_le_one inps s0 hun hall hok, ?_, ?_⟩ <;>
    norm_num [enterCount, runTicks, processSymbol, mkTickInput, usablePrice,
      calculateSpread, getOrCreateState, freshState, decisionLabel,
      hasOpenPositionOrOrder, hasShortPosition, ENTRY_SPREAD, RESET_SPREAD,
      EXIT_SPREAD, updateState, TickResult.skipped, List.filter,
      abs_of_nonneg]

/-- C2 witness: the 14, 10, 14, 10 percent sequence submits at most once. -/
theorem C2_single_entry_witness :
    enterCount (runTicks none [mkTickInput 114 100, mkTickInput 110 100,
        mkTickInput 114 100, mkTickInput 110 100]) ≤ 1 := by
  have h := C2_single_entry [mkTickInput 114 100, mkTickInput 110 100,
      mkTickInput 114 100, mkTickInput 110 100] none rfl
    (by norm_num [noResetSpread, tickSpread?, mkTickInput, usablePrice,
      calculateSpread, RESET_SPREAD, List.all, abs_of_nonneg])
    (by norm_num [mkTickInput, List.all])
  exact h.1

/-- C3: on an ARMED tick with spread below 2 percent the armed flag is
always cleared, and a close order is submitted if and only if an open short
position still exists at the exit-branch refetch; clearing does not depend
on the close order. -/
theorem C3_exit_reset (inp : SymbolInput) (s0 : Option HysteresisState)
    (m d : ℚ)
    (hm : usablePrice inp.mexcPrice = some m)
    (hd : usablePrice inp.dexPrice = some d)
    (hpair : inp.dexPairId.isSome = true)
    (harm : armedOf s0 = true)
    (hexit : calculateSpread m d < EXIT_SPREAD) :
    armedOf (processSymbol inp s0).newState = false
    ∧ ((processSymbol inp s0).closeShortCalled = true
        ↔ hasShortPosition inp.symbol inp.positionsForExit = true)
    ∧ (processSymbol inp s0).openShortCalled = false := by
  obtain ⟨pid, hpid⟩ := Option.isSome_iff_exists.mp hpair
  have hw : (getOrCreateState s0).wasTriggered = true := harm
  have h7 : calculateSpread m d < RESET_SPREAD := by
    refine lt_trans hexit ?_
    norm_num [EXIT_SPREAD, RESET_SPREAD]
  simp only [armedOf]
  simp only [processSymbol, hpid, hm, hd, hw, decide_eq_true_eq,
    Bool.true_eq_false, Bool.false_eq_true, and_false, false_and, and_true,
    true_and, ite_false, if_false, updateState, eq_self_iff_true,
    not_false_eq_true]
  simp [hexit, h7, getOrCreateState]

/-- C3 witness: at spread 1 percent from ARMED, the flag clears with and
without an open short, and the close order is submitted only with one. -/
theorem C3_exit_reset_witness :
    armedOf (processSymbol { mkTickInput 101 100 with
        positionsForExit := [shortPos] } (some armedState)).newState = false
    ∧ (processSymbol { mkTickInput 101 100 with
        positionsForExit := [shortPos] } (some armedState)).closeShortCalled
        = true
    ∧ armedOf (processSymbol (mkTickInput 101 100)
        (some armedState)).newState = false
    ∧ (processSymbol (mkTickInput 101 100)
        (some armedState)).closeShortCalled = false := by
  have hsp : calculateSpread 101 100 < EXIT_SPREAD := by
    norm_num [calculateSpread, EXIT_SPREAD, abs_of_nonneg]
  have h1 := C3_exit_reset { mkTickInput 101 100 with positionsForExit := [shortPos] }
    (some armedState) 101 100
    (by norm_num [mkTickInput, usablePrice])
    (by norm_num [mkTickInput, usablePrice])
    (by simp [mkTickInput]) rfl hsp
  have h2 := C3_exit_reset (mkTickInput 101 100) (some armedState) 101 100
    (by norm_num [mkTickInput, usablePrice])
    (by norm_num [mkTickInput, usablePrice])
    (by simp [mkTickInput]) rfl hsp
  refine ⟨h1.1, h1.2.1.mpr ?_, h2.1, ?_⟩
  · simp [mkTickInput, hasShortPosition, shortPos]
  · by_contra hc
    rw [Bool.not_eq_false] at hc
    have := h2.2.1.mp hc
    simp [mkTickInput, hasShortPosition] at this

/-- C4: the persisted armed flag is created as false and its next value is
fully determined by the ENTER transition (true, only after a successful
submission) and the RESET transition (false, only when ARMED and the
computed spread is below 7 percent); nothing else, in particular not EXIT,
writes it. -/
theorem C4_armed_flag_writers (inp : SymbolInput) (s0 : Option HysteresisState) :
    armedOf none = false
    ∧ armedOf (processSymbol inp s0).newState
      = (if (processSymbol inp s0).openShortCalled = true
            ∧ inp.openShortOk = true then true
         else if armedOf s0 = true ∧ resetSpreadHit inp = true then false
         else armedOf s0) := by
  refine ⟨rfl, ?_⟩
  by_cases hskip : inp.dexPairId = none ∨ usablePrice inp.mexcPrice = none
      ∨ usablePrice inp.dexPrice = none
  · have hrs : resetSpreadHit inp = false := by
      unfold resetSpreadHit
      rw [tickSpread_none inp hskip]
    rw [processSymbol_skipped inp s0 hskip]
    simp [TickResult.skipped, hrs]
  · push_neg at hskip
    obtain ⟨hpd, hmn, hdn⟩ := hskip
    obtain ⟨pid, hpid⟩ := Option.ne_none_iff_exists.mp hpd
    obtain ⟨m, hm⟩ := Option.ne_none_iff_exists.mp hmn
    obtain ⟨d, hd⟩ := Option.ne_none_iff_exists.mp hdn
    have hrs : resetSpreadHit inp
        = decide (calculateSpread m d < RESET_SPREAD) := by
      unfold resetSpreadHit tickSpread?
      rw [← hpid, ← hm, ← hd]
    simp only [armedOf]
    simp only [processSymbol, ← hpid, ← hm, ← hd, updateState,
      getOrCreateState_some]
    cases hw : (getOrCreateState s0).wasTriggered with
    | false =>
      simp only [hw, Bool.false_eq_true, false_and, and_false, true_and,
        and_true, if_false, ite_false, hrs]
      by_cases hg : ENTRY_SPREAD ≤ calculateSpread m d ∧ d < m
          ∧ hasOpenPositionOrOrder inp.symbol inp.positionsForEntry
              inp.ordersForEntry = false
      · by_cases hok : inp.openShortOk = true
        · simp [hg, hok, getOrCreateState_some, hw]
        · rw [Bool.not_eq_true] at hok
          simp [hg, hok, hw, getOrCreateState_some]
      · simp [hg, hw, getOrCreateState_some]
    | true =>
      simp only [hw, Bool.true_eq_false, false_and, and_false, true_and,
        and_true, if_false, ite_false, hrs]
      by_cases h7 : calculateSpread m d < RESET_SPREAD
      · simp [h7, getOrCreateState_some, hw]
      · simp [h7, getOrCreateState_some, hw]

/-- C4 witness: the flag-writer equation at a concrete entering tick. -/
theorem C4_armed_flag_writers_witness :
    armedOf none = false
    ∧ armedOf (processSymbol (mkTickInput 114 100) none).newState
      = (if (processSymbol (mkTickInput 114 100) none).openShortCalled = true
            ∧ (mkTickInput 114 100).openShortOk = true then true
         else if armedOf none = true
            ∧ resetSpreadHit (mkTickInput 114 100) = true then false
         else armedOf none) :=
  C4_armed_flag_writers (mkTickInput 114 100) none

/-- C5: if listing positions or orders throws, the duplicate check reports
busy, and the tick submits no entry order. -/
theorem C5_fail_safe_busy (inp : SymbolInput) (s0 : Option HysteresisState)
    (hfail : inp.positionsForEntry = none ∨ inp.ordersForEntry = none) :
    hasOpenPositionOrOrder inp.symbol inp.positionsForEntry
      inp.ordersForEntry = true
    ∧ (processSymbol inp s0).openShortCalled = false := by
  have hopen : hasOpenPositionOrOrder inp.symbol inp.positionsForEntry
      inp.ordersForEntry = true := by
    unfold hasOpenPositionOrOrder
    rcases hfail with h | h
    · cases ho : inp.ordersForEntry <;> simp [h, ho]
    · cases hp : inp.positionsForEntry <;> simp [h, hp]
  refine ⟨hopen, ?_⟩
  by_cases hskip : inp.dexPairId = none ∨ usablePrice inp.mexcPrice = none
      ∨ usablePrice inp.dexPrice = none
  · rw [processSymbol_skipped inp s0 hskip]
    rfl
  · push_neg at hskip
    obtain ⟨hpd, hmn, hdn⟩ := hskip
    obtain ⟨pid, hpid⟩ := Option.ne_none_iff_exists.mp hpd
    obtain ⟨m, hm⟩ := Option.ne_none_iff_exists.mp hmn
    obtain ⟨d, hd⟩ := Option.ne_none_iff_exists.mp hdn
    simp only [processSymbol, ← hpid, ← hm, ← hd, hopen]
    simp [hopen]

/-- C5 witness: a thrown positions listing blocks the entry. -/
theorem C5_fail_safe_busy_witness :
    hasOpenPositionOrOrder
      ({ mkTickInput 114 100 with positionsForEntry := none } :
        SymbolInput).symbol
      ({ mkTickInput 114 100 with positionsForEntry := none } :
        SymbolInput).positionsForEntry
      ({ mkTickInput 114 100 with positionsForEntry := none } :
        SymbolInput).ordersForEntry = true
    ∧ (processSymbol { mkTickInput 114 100 with positionsForEntry := none }
        none).openShortCalled = false :=
  C5_fail_safe_busy { mkTickInput 114 100 with positionsForEntry := none } none
    (Or.inl rfl)

/-- C6: under passing entry guards, if the open-short submission throws the
persisted state is exactly the row read at the start of the tick (still
UNARMED, old snapshot) and re-running the tick retries the same decision;
the armed state with fresh snapshot is persisted only when the submission
returns successfully. -/
theorem C6_no_persist_on_throw (inp : SymbolInput) (s0 : Option HysteresisState)
    (m d : ℚ)
    (hm : usablePrice inp.mexcPrice = some m)
    (hd : usablePrice inp.dexPrice = some d)
    (hpair : inp.dexPairId.isSome = true)
    (hg : ENTRY_SPREAD ≤ calculateSpread m d ∧ d < m ∧ armedOf s0 = false
      ∧ hasOpenPositionOrOrder inp.symbol inp.positionsForEntry
          inp.ordersForEntry = false) :
    (inp.openShortOk = false →
      (processSymbol inp s0).openShortCalled = true
      ∧ (processSymbol inp s0).newState = some (getOrCreateState s0)
      ∧ armedOf (processSymbol inp s0).newState = false
      ∧ processSymbol inp (processSymbol inp s0).newState
          = processSymbol inp s0)
    ∧ (inp.openShortOk = true →
      (processSymbol inp s0).openShortCalled = true
      ∧ (processSymbol inp s0).newState
          = some (updateState true m d (calculateSpread m d) inp.now)) := by
  obtain ⟨pid, hpid⟩ := Option.isSome_iff_exists.mp hpair
  obtain ⟨hg1, hg2, hun, hg3⟩ := hg
  have hw : (getOrCreateState s0).wasTriggered = false := hun
  constructor
  · intro hko
    have hres : processSymbol inp s0
        = { decision := some (decisionLabel false (calculateSpread m d)
              (decide (d < m)))
            mexcPriceUsed := some m
            dexPriceUsed := some d
            spreadPercent := some (calculateSpread m d)
            isAutoPosition := hasShortPosition inp.symbol inp.positionsForLog
              && false
            openShortCalled := true
            closeShortCalled := false
            newState := some (getOrCreateState s0) } := by
      simp only [processSymbol, hpid, hm, hd, hw]
      rw [if_pos ⟨decide_eq_true ⟨hg1, hg2, trivial, hg3⟩, hko⟩]
    refine ⟨?_, ?_, ?_, ?_⟩
    · rw [hres]
    · rw [hres]
    · rw [hres]
      exact hun
    · calc processSymbol inp (processSymbol inp s0).newState
          = processSymbol inp (some (getOrCreateState s0)) := by rw [hres]
        _ = processSymbol inp s0 :=
          processSymbol_restate inp s0 pid m d hpid hm hd
  · intro hok
    simp only [processSymbol, hpid, hm, hd, hw, hok, Bool.true_eq_false,
      and_false, if_false, ite_false]
    constructor
    · simp [hg1, hg2, hg3]
    · simp [hg1, hg2, hg3, hw, decide_eq_true_eq, updateState]

/-- C6 witness: a failing submission at 14 percent spread leaves the row
unchanged; a successful one persists the armed snapshot. -/
theorem C6_no_persist_on_throw_witness :
    (processSymbol { mkTickInput 114 100 with openShortOk := false }
        none).openShortCalled = true
    ∧ (processSymbol { mkTickInput 114 100 with openShortOk := false }
        none).newState = some (getOrCreateState none)
    ∧ armedOf (processSymbol { mkTickInput 114 100 with openShortOk := false }
        none).newState = false
    ∧ (processSymbol (mkTickInput 114 100) none).newState
        = some (updateState true 114 100 (calculateSpread 114 100)
            (mkTickInput 114 100).now) := by
  have h1 := C6_no_persist_on_throw { mkTickInput 114 100 with openShortOk := false } none
    114 100
    (by norm_num [mkTickInput, usablePrice])
    (by norm_num [mkTickInput, usablePrice])
    (by simp [mkTickInput])
    ⟨by norm_num [calculateSpread, ENTRY_SPREAD, abs_of_nonneg],
     by norm_num, rfl,
     by simp [mkTickInput, hasOpenPositionOrOrder, hasShortPosition]⟩
  have h2 := C6_no_persist_on_throw (mkTickInput 114 100) none 114 100
    (by norm_num [mkTickInput, usablePrice])
    (by norm_num [mkTickInput, usablePrice])
    (by simp [mkTickInput])
    ⟨by norm_num [calculateSpread, ENTRY_SPREAD, abs_of_nonneg],
     by norm_num, rfl,
     by simp [mkTickInput, hasOpenPositionOrOrder, hasShortPosition]⟩
  obtain ⟨ha, hb, hc, -⟩ := h1.1 rfl
  exact ⟨ha, hb, hc, (h2.2 rfl).2⟩

/-- C7: a tick whose exchange or reference price fetch is unavailable makes
no decision for the symbol, invokes no trade action, leaves the persisted
state unchanged, and the remaining symbols of the loop are evaluated
exactly as they would have been. -/
theorem C7_unavailable_price_skip (inp : SymbolInput) (rest : List SymbolInput)
    (σ : String → Option HysteresisState)
    (h : usablePrice inp.mexcPrice = none ∨ usablePrice inp.dexPrice = none) :
    (∀ s0, processSymbol inp s0 = TickResult.skipped s0)
    ∧ runLoop (inp :: rest) σ
        = (TickResult.skipped (σ inp.symbol) :: (runLoop rest σ).1,
           (runLoop rest σ).2) := by
  have hskip : ∀ s0, processSymbol inp s0 = TickResult.skipped s0 :=
    fun s0 => processSymbol_skipped inp s0 (Or.inr h)
  refine ⟨hskip, ?_⟩
  have hσ : (fun sym => if sym = inp.symbol then σ inp.symbol else σ sym)
      = σ := by
    funext sym
    by_cases hs : sym = inp.symbol
    · rw [hs, if_pos rfl]
    · rw [if_neg hs]
  simp only [runLoop, hskip, TickResult.skipped, hσ]

/-- C7 witness: an unavailable exchange price skips the first symbol and
leaves the rest of the loop unaffected. -/
theorem C7_unavailable_price_skip_witness :
    (∀ s0, processSymbol { mkTickInput 114 100 with mexcPrice := none } s0
      = TickResult.skipped s0)
    ∧ runLoop ({ mkTickInput 114 100 with mexcPrice := none }
          :: [mkTickInput 114 100]) (fun _ => none)
        = (TickResult.skipped ((fun _ => none)
            ({ mkTickInput 114 100 with mexcPrice := none }
              : SymbolInput).symbol)
            :: (runLoop [mkTickInput 114 100] (fun _ => none)).1,
           (runLoop [mkTickInput 114 100] (fun _ => none)).2) :=
  C7_unavailable_price_skip { mkTickInput 114 100 with mexcPrice := none }
    [mkTickInput 114 100] (fun _ => none) (Or.inl rfl)

/-- C8 counterexample: with UNARMED, spread 15 percent, favorable direction
and an existing open short, the observable decision label is enter, not
skip (the label is computed before the duplicate check); and on an ARMED
tick at spread 1 percent with an open short the label is wait reset, not
exit, although the close order is submitted. -/
theorem C8_decision_labels_counterexample :
    (processSymbol c8inp none).decision = some "enter"
    ∧ (processSymbol c8inp none).decision ≠ some "skip"
    ∧ (processSymbol c8inp none).openShortCalled = false
    ∧ (processSymbol c8exit (some armedState)).decision
        = some "wait reset"
    ∧ (processSymbol c8exit (some armedState)).decision ≠ some "exit"
    ∧ (processSymbol c8exit (some armedState)).closeShortCalled = true := by
  refine ⟨c8_enter_eval.1, ?_, c8_enter_eval.2, c8_exit_eval.1, ?_,
    c8_exit_eval.2⟩
  · rw [c8_enter_eval.1]
    simp
  · rw [c8_exit_eval.1]
    simp

/-- C8 amended: every evaluated tick logs exactly one of the five labels
enter, wait reset, close, hold, skip; the close label is unreachable; the
duplicate-position check does not influence the label (an open short under
passing entry guards still logs enter while submitting nothing); and an
ARMED tick below the exit threshold logs wait reset while still submitting
the close order. -/
theorem C8_decision_labels_amended (inp : SymbolInput) (s0 : Option HysteresisState)
    (hdec : (processSymbol inp s0).decision ≠ none) :
    ((processSymbol inp s0).decision = some "enter"
      ∨ (processSymbol inp s0).decision = some "wait reset"
      ∨ (processSymbol inp s0).decision = some "close"
      ∨ (processSymbol inp s0).decision = some "hold"
      ∨ (processSymbol inp s0).decision = some "skip")
    ∧ (processSymbol inp s0).decision ≠ some "close"
    ∧ (processSymbol c8inp none).decision = some "enter"
    ∧ (processSymbol c8inp none).openShortCalled = false
    ∧ (processSymbol c8exit (some armedState)).decision = some "wait reset"
    ∧ (processSymbol c8exit (some armedState)).closeShortCalled = true := by
  refine ⟨?_, ?_, c8_enter_eval.1, c8_enter_eval.2, c8_exit_eval.1,
    c8_exit_eval.2⟩ <;>
    rcases processSymbol_decision inp s0 with h | ⟨m, d, -, -, h⟩
  · exact absurd h hdec
  · rw [h]
    rcases decisionLabel_cases (getOrCreateState s0).wasTriggered
        (calculateSpread m d) (decide (d < m)) with
      h1 | h1 | h1 | h1 | h1 <;> rw [h1] <;> tauto
  · exact absurd h hdec
  · rw [h]
    intro hc
    exact decisionLabel_ne_close (getOrCreateState s0).wasTriggered
      (calculateSpread m d) (decide (d < m)) (Option.some_injective _ hc)

/-- C8 amended witness: the label taxonomy at the concrete blocked entry. -/
theorem C8_decision_labels_amended_witness :
    ((processSymbol c8inp none).decision = some "enter"
      ∨ (processSymbol c8inp none).decision = some "wait reset"
      ∨ (processSymbol c8inp none).decision = some "close"
      ∨ (processSymbol c8inp none).decision = some "hold"
      ∨ (processSymbol c8inp none).decision = some "skip")
    ∧ (processSymbol c8inp none).decision ≠ some "close" := by
  have h := C8_decision_labels_amended c8inp none (by
    rw [c8_enter_eval.1]
    simp)
  exact ⟨h.1, h.2.1⟩

/-- C9: the spread equals the absolute relative difference times 100, is
non-negative for positive reference prices, and at exchange price 100 and
reference price 86.9 equals 13100/869 (about 15.08, at least 13), so that
tick enters and arms from UNARMED. -/
theorem C9_spread_formula (m d : ℚ) (hd : 0 < d) :
    calculateSpread m d = |m - d| / d * 100
    ∧ 0 ≤ calculateSpread m d
    ∧ calculateSpread 100 (869/10) = 13100/869
    ∧ ENTRY_SPREAD ≤ calculateSpread 100 (869/10)
    ∧ (processSymbol (mkTickInput 100 (869/10)) none).openShortCalled = true
    ∧ armedOf (processSymbol (mkTickInput 100 (869/10)) none).newState
        = true := by
  refine ⟨rfl, ?_, ?_, ?_, ?_, ?_⟩
  · exact mul_nonneg (div_nonneg (abs_nonneg _) hd.le) (by norm_num)
  · norm_num [calculateSpread, abs_of_nonneg]
  · norm_num [calculateSpread, ENTRY_SPREAD, abs_of_nonneg]
  · norm_num [processSymbol, mkTickInput, usablePrice, calculateSpread,
      getOrCreateState, freshState, decisionLabel, hasOpenPositionOrOrder,
      hasShortPosition, ENTRY_SPREAD, RESET_SPREAD, EXIT_SPREAD, updateState,
      abs_of_nonneg]
  · norm_num [armedOf, processSymbol, mkTickInput, usablePrice,
      calculateSpread, getOrCreateState, freshState, decisionLabel,
      hasOpenPositionOrOrder, hasShortPosition, ENTRY_SPREAD, RESET_SPREAD,
      EXIT_SPREAD, updateState, abs_of_nonneg]

/-- C9 witness: the formula facts at exchange 100 and reference 86.9. -/
theorem C9_spread_formula_witness :
    0 ≤ calculateSpread 100 (869/10)
    ∧ ENTRY_SPREAD ≤ calculateSpread 100 (869/10)
    ∧ (processSymbol (mkTickInput 100 (869/10)) none).openShortCalled
        = true := by
  have h := C9_spread_formula 100 (869/10) (by norm_num)
  exact ⟨h.2.1, h.2.2.2.1, h.2.2.2.2.1⟩

/-- C10: a fetched price of exactly 0 or NaN is treated identically to an
unavailable price, with no trade action and no state change, and
consequently calculateSpread is never invoked by the monitoring loop with a
zero reference price. -/
theorem C10_zero_nan_skip (inp : SymbolInput) (s0 : Option HysteresisState) :
    processSymbol { inp with mexcPrice := some (JsNum.num 0) } s0
      = TickResult.skipped s0
    ∧ processSymbol { inp with mexcPrice := some JsNum.nan } s0
      = TickResult.skipped s0
    ∧ processSymbol { inp with mexcPrice := none } s0 = TickResult.skipped s0
    ∧ processSymbol { inp with dexPrice := some (JsNum.num 0) } s0
      = TickResult.skipped s0
    ∧ processSymbol { inp with dexPrice := some JsNum.nan } s0
      = TickResult.skipped s0
    ∧ processSymbol { inp with dexPrice := none } s0 = TickResult.skipped s0
    ∧ (processSymbol inp s0).dexPriceUsed ≠ some 0 := by
  refine ⟨?_, ?_, ?_, ?_, ?_, ?_, ?_⟩
  · exact processSymbol_skipped _ s0 (Or.inr (Or.inl (by simp [usablePrice])))
  · exact processSymbol_skipped _ s0 (Or.inr (Or.inl (by simp [usablePrice])))
  · exact processSymbol_skipped _ s0 (Or.inr (Or.inl (by simp [usablePrice])))
  · exact processSymbol_skipped _ s0
      (Or.inr (Or.inr (by simp [usablePrice])))
  · exact processSymbol_skipped _ s0
      (Or.inr (Or.inr (by simp [usablePrice])))
  · exact processSymbol_skipped _ s0
      (Or.inr (Or.inr (by simp [usablePrice])))
  · by_cases hskip : inp.dexPairId = none ∨ usablePrice inp.mexcPrice = none
        ∨ usablePrice inp.dexPrice = none
    · rw [processSymbol_skipped inp s0 hskip]
      simp [TickResult.skipped]
    · push_neg at hskip
      obtain ⟨hpd, hmn, hdn⟩ := hskip
      obtain ⟨pid, hpid⟩ := Option.ne_none_iff_exists.mp hpd
      obtain ⟨m, hm⟩ := Option.ne_none_iff_exists.mp hmn
      obtain ⟨d, hd⟩ := Option.ne_none_iff_exists.mp hdn
      have hdz : d ≠ 0 := usablePrice_ne_zero _ _ hd.symm
      simp only [processSymbol, ← hpid, ← hm, ← hd]
      split_ifs <;> simp [hdz]

/-- C10 witness: a zero reference price skips the tick, and a concrete
evaluated tick never passes zero to calculateSpread. -/
theorem C10_zero_nan_skip_witness :
    processSymbol { mkTickInput 114 100 with
        dexPrice := some (JsNum.num 0) } none = TickResult.skipped none
    ∧ (processSymbol (mkTickInput 114 100) none).dexPriceUsed ≠ some 0 := by
  have h := C10_zero_nan_skip (mkTickInput 114 100) none
  exact ⟨h.2.2.2.1, h.2.2.2.2.2.2⟩
